import Mathlib

/-!
Shallow embedding of the agents-hub multi-agent orchestration hub (Go).

The Go source is translated into executable Lean definitions:

* `internal/types/a2a.go` task, message and part records (string-typed task
  states, as in the source);
* the `TaskManager` task store of the hub package (`Create`, `Get`,
  `UpdateStatus`, `List`, `persistLocked`) with Go pointer mutation made
  explicit as map updates and the asynchronous `tasks.json` snapshot
  modelled by a `persisted` field;
* the server RPC handlers `message/send`, `tasks/get`, `tasks/cancel`;
* the generic CLI agent (`extractPrompt`, argument substitution,
  `Execute` with the spawned child process as an oracle parameter);
* the static orchestrator (`splitPrompt`, `compactStrings`, round-robin
  delegate assignment) and the LLM orchestrator target normalisation
  (`normalizeTargets`, target-count cap, fallback routing);
* the Claude and Gemini per-agent configuration layers
  (`extractClaudeConfig`, `buildArgs`, `extractGeminiConfig`);
* the Unix-socket NDJSON connection loop (`handleConn`) with the
  `bufio.Scanner` token-size limit.

Wall-clock readings (`time.Now`) are passed as explicit string arguments,
generated ids as explicit parameters, and external effects (spawning a
child process, the JSON parser on the wire, the remote agent) as oracle
functions, so every definition stays computable.

Go maps are modelled by insertion-ordered association lists; where the Go
code iterates a map (whose iteration order the Go runtime does not fix and
actively randomises), the enumeration order is an explicit parameter
ranging over permutations of the stored values.
-/

namespace AgentsHub

/-! ## JSON metadata values

`map[string]any` metadata from the wire is modelled by a small JSON value
type; Go type assertions `v.(string)`, `v.(bool)`, `v.([]any)` and
`v.(map[string]any)` become the partial projections below. -/

/-- JSON values carried in `metadata` maps. -/
inductive JVal where
  | str (s : String)
  | boolean (b : Bool)
  | num (n : Int)
  | arr (xs : List JVal)
  | obj (fields : List (String × JVal))
  | null
deriving Repr

mutual

/-- Decidable equality for `JVal` (the nested lists prevent deriving). -/
def JVal.decEq : (a b : JVal) → Decidable (a = b)
  | .str a, .str b =>
      if h : a = b then isTrue (by rw [h]) else isFalse (by simp [h])
  | .str _, .boolean _ => isFalse (fun h => JVal.noConfusion h)
  | .str _, .num _ => isFalse (fun h => JVal.noConfusion h)
  | .str _, .arr _ => isFalse (fun h => JVal.noConfusion h)
  | .str _, .obj _ => isFalse (fun h => JVal.noConfusion h)
  | .str _, .null => isFalse (fun h => JVal.noConfusion h)
  | .boolean _, .str _ => isFalse (fun h => JVal.noConfusion h)
  | .boolean a, .boolean b =>
      if h : a = b then isTrue (by rw [h]) else isFalse (by simp [h])
  | .boolean _, .num _ => isFalse (fun h => JVal.noConfusion h)
  | .boolean _, .arr _ => isFalse (fun h => JVal.noConfusion h)
  | .boolean _, .obj _ => isFalse (fun h => JVal.noConfusion h)
  | .boolean _, .null => isFalse (fun h => JVal.noConfusion h)
  | .num _, .str _ => isFalse (fun h => JVal.noConfusion h)
  | .num _, .boolean _ => isFalse (fun h => JVal.noConfusion h)
  | .num a, .num b =>
      if h : a = b then isTrue (by rw [h]) else isFalse (by simp [h])
  | .num _, .arr _ => isFalse (fun h => JVal.noConfusion h)
  | .num _, .obj _ => isFalse (fun h => JVal.noConfusion h)
  | .num _, .null => isFalse (fun h => JVal.noConfusion h)
  | .arr _, .str _ => isFalse (fun h => JVal.noConfusion h)
  | .arr _, .boolean _ => isFalse (fun h => JVal.noConfusion h)
  | .arr _, .num _ => isFalse (fun h => JVal.noConfusion h)
  | .arr a, .arr b =>
      match JVal.decEqList a b with
      | isTrue h => isTrue (by rw [h])
      | isFalse h => isFalse (by simp only [JVal.arr.injEq]; exact h)
  | .arr _, .obj _ => isFalse (fun h => JVal.noConfusion h)
  | .arr _, .null => isFalse (fun h => JVal.noConfusion h)
  | .obj _, .str _ => isFalse (fun h => JVal.noConfusion h)
  | .obj _, .boolean _ => isFalse (fun h => JVal.noConfusion h)
  | .obj _, .num _ => isFalse (fun h => JVal.noConfusion h)
  | .obj _, .arr _ => isFalse (fun h => JVal.noConfusion h)
  | .obj a, .obj b =>
      match JVal.decEqFields a b with
      | isTrue h => isTrue (by rw [h])
      | isFalse h => isFalse (by simp only [JVal.obj.injEq]; exact h)
  | .obj _, .null => isFalse (fun h => JVal.noConfusion h)
  | .null, .str _ => isFalse (fun h => JVal.noConfusion h)
  | .null, .boolean _ => isFalse (fun h => JVal.noConfusion h)
  | .null, .num _ => isFalse (fun h => JVal.noConfusion h)
  | .null, .arr _ => isFalse (fun h => JVal.noConfusion h)
  | .null, .obj _ => isFalse (fun h => JVal.noConfusion h)
  | .null, .null => isTrue rfl

/-- Decidable equality for lists of `JVal`. -/
def JVal.decEqList : (xs ys : List JVal) → Decidable (xs = ys)
  | [], [] => isTrue rfl
  | [], _ :: _ => isFalse (fun h => List.noConfusion h)
  | _ :: _, [] => isFalse (fun h => List.noConfusion h)
  | x :: xs, y :: ys =>
      match JVal.decEq x y, JVal.decEqList xs ys with
      | isTrue h1, isTrue h2 => isTrue (by rw [h1, h2])
      | isFalse h1, _ => isFalse (by simp only [List.cons.injEq]; intro hc; exact h1 hc.1)
      | _, isFalse h2 => isFalse (by simp only [List.cons.injEq]; intro hc; exact h2 hc.2)

/-- Decidable equality for `JVal` object field lists. -/
def JVal.decEqFields : (xs ys : List (String × JVal)) → Decidable (xs = ys)
  | [], [] => isTrue rfl
  | [], _ :: _ => isFalse (fun h => List.noConfusion h)
  | _ :: _, [] => isFalse (fun h => List.noConfusion h)
  | (k1, v1) :: xs, (k2, v2) :: ys =>
      if hk : k1 = k2 then
        match JVal.decEq v1 v2, JVal.decEqFields xs ys with
        | isTrue h1, isTrue h2 => isTrue (by rw [hk, h1, h2])
        | isFalse h1, _ =>
            isFalse (by simp only [List.cons.injEq, Prod.mk.injEq]; intro hc; exact h1 hc.1.2)
        | _, isFalse h2 =>
            isFalse (by simp only [List.cons.injEq, Prod.mk.injEq]; intro hc; exact h2 hc.2)
      else
        isFalse (by simp only [List.cons.injEq, Prod.mk.injEq]; intro hc; exact hk hc.1.1)

end

instance : DecidableEq JVal := JVal.decEq

/-- Go map lookup `m[k]` on an association list (first binding wins). -/
def jlookup (fields : List (String × JVal)) (key : String) : Option JVal :=
  (fields.find? (fun p => p.1 == key)).map Prod.snd

/-- Go type assertion `v.(string)`. -/
def JVal.asStr : JVal → Option String
  | .str s => some s
  | _ => none

/-- Go type assertion `v.(bool)`. -/
def JVal.asBool : JVal → Option Bool
  | .boolean b => some b
  | _ => none

/-- Go type assertion `v.([]any)`. -/
def JVal.asArr : JVal → Option (List JVal)
  | .arr xs => some xs
  | _ => none

/-- Go type assertion `v.(map[string]any)`. -/
def JVal.asObj : JVal → Option (List (String × JVal))
  | .obj fields => some fields
  | _ => none

/-! ## Go string primitives

The embedded code uses `strings.Split`, `strings.Contains` and
`strings.TrimSpace`. They are implemented here over `List Char` by
structural recursion (the core `String.splitOn` and `String.trim` are
defined by well-founded recursion on byte positions and do not reduce in
the kernel, which would block evaluating the embedding on concrete
inputs). -/

/-- Whether `sub` is a prefix of `s` (Go `strings.HasPrefix` on rune
lists). -/
def listStartsWith : List Char → List Char → Bool
  | _, [] => true
  | [], _ :: _ => false
  | c :: cs, d :: ds => c == d && listStartsWith cs ds

/-- Go `strings.Contains` on rune lists. -/
def listContains : List Char → List Char → Bool
  | [], sub => sub.isEmpty
  | s@(_ :: rest), sub => listStartsWith s sub || listContains rest sub

/-- Go `strings.Contains s sub`. -/
def containsSub (s sub : String) : Bool :=
  listContains s.data sub.data

/-- The scanner of Go `strings.Split` for a non-empty separator: emit the
accumulated run at each non-overlapping separator occurrence, scanning
left to right. `fuel` only drives the structural recursion; any value at
least `length s` is exact. -/
def splitOnChars (sep : List Char) : Nat → List Char → List Char → List (List Char)
  | 0, cur, s => [cur.reverse ++ s]
  | _ + 1, cur, [] => [cur.reverse]
  | fuel + 1, cur, s@(c :: rest) =>
      if listStartsWith s sep then
        cur.reverse :: splitOnChars sep fuel [] (s.drop sep.length)
      else
        splitOnChars sep fuel (c :: cur) rest

/-- Go `strings.Split s sep` for the non-empty separators the code uses. -/
def goSplit (s sep : String) : List String :=
  (splitOnChars sep.data (s.data.length + 1) [] s.data).map (fun cs => String.mk cs)

/-- Go `unicode.IsSpace` restricted to Latin-1 (the embedded inputs are
ASCII; the wider Unicode space category never occurs in them). -/
def isSpaceGo (c : Char) : Bool :=
  c == ' ' || c == '\t' || c == '\n' || c == Char.ofNat 11 || c == Char.ofNat 12 ||
    c == '\r' || c == Char.ofNat 0x85 || c == Char.ofNat 0xA0

/-- Go `strings.TrimSpace`. -/
def trimGo (s : String) : String :=
  String.mk (((s.data.dropWhile isSpaceGo).reverse.dropWhile isSpaceGo).reverse)

/-- Go `strings.Join` (structural recursion, so it reduces in the
kernel). -/
def joinWith (sep : String) : List String → String
  | [] => ""
  | s :: rest => rest.foldl (fun acc x => acc ++ sep ++ x) s

/-! ## Data model (internal/types/a2a.go) -/

/-- Task states (`internal/types/a2a.go`); the Go type is a string type, so
the embedding keeps `String` and names the constants. -/
def TaskStateSubmitted : String := "submitted"

def TaskStateWorking : String := "working"

def TaskStateInputRequired : String := "input-required"

def TaskStateCompleted : String := "completed"

def TaskStateCanceled : String := "canceled"

def TaskStateFailed : String := "failed"

def TaskStateRejected : String := "rejected"

def TaskStateAuthRequired : String := "auth-required"

def TaskStateUnknown : String := "unknown"

/-- A message part (`internal/types/a2a.go`). The `file` and `data`
variants are not read by any of the embedded operations (they all branch
on `kind == "text"` and read `text`), so only those two fields are kept. -/
structure Part where
  kind : String := ""
  text : String := ""
deriving Repr, DecidableEq

/-- A message (`internal/types/a2a.go`). `metadata` is `none` when the Go
map is nil. -/
structure Message where
  kind : String := ""
  messageId : String := ""
  role : String := ""
  parts : List Part := []
  taskId : String := ""
  contextId : String := ""
  metadata : Option (List (String × JVal)) := none
deriving Repr, DecidableEq

/-- Task status (`internal/types/a2a.go`). -/
structure TaskStatus where
  state : String := ""
  message : Option Message := none
  timestamp : String := ""
deriving Repr, DecidableEq

/-- A task record (`internal/types/a2a.go`). `artifacts` and `metadata`
are not touched by the embedded operations and are omitted. -/
structure Task where
  kind : String := ""
  id : String := ""
  contextId : String := ""
  status : TaskStatus := {}
  history : List Message := []
deriving Repr, DecidableEq

/-! ## Task store (hub TaskManager) -/

/-- Insert-or-replace on an insertion-ordered association list; this is the
Go map write `m[k] = v` (replacement keeps the slot, a fresh key appends). -/
def mapInsert (m : List (String × Task)) (k : String) (v : Task) : List (String × Task) :=
  if m.any (fun p => p.1 == k) then
    m.map (fun p => if p.1 == k then (k, v) else p)
  else
    m ++ [(k, v)]

/-- Go map read `m[k]`. -/
def mapGet (m : List (String × Task)) (k : String) : Option Task :=
  (m.find? (fun p => p.1 == k)).map Prod.snd

/-- The hub task store. `tasks` is the `map[string]*Task` in insertion
order; `persisted` is the content of the on-disk `tasks.json` snapshot
(`none` while no write has happened). -/
structure TaskManager where
  tasks : List (String × Task) := []
  persistPath : String := ""
  persisted : Option (List Task) := none
deriving Repr, DecidableEq

/-- The values stored in the task map, in insertion order. -/
def TaskManager.values (tm : TaskManager) : List Task :=
  tm.tasks.map Prod.snd

/-- `TaskManager.persistLocked`: skip when no persistence path is set,
otherwise serialize a snapshot of every stored task to `tasks.json`. -/
def TaskManager.persistLocked (tm : TaskManager) : TaskManager :=
  if tm.persistPath == "" then tm
  else { tm with persisted := some tm.values }

/-- `TaskManager.Create`: store the task under its id, then persist. -/
def TaskManager.create (tm : TaskManager) (task : Task) : TaskManager :=
  TaskManager.persistLocked { tm with tasks := mapInsert tm.tasks task.id task }

/-- `TaskManager.Get`. -/
def TaskManager.get (tm : TaskManager) (id : String) : Option Task :=
  mapGet tm.tasks id

/-- `TaskManager.UpdateStatus` (internal/types/claude.go lines 304-316):
look the task up, overwrite `Status.State`, `Status.Message` and
`Status.Timestamp` unconditionally, persist. No transition validation is
performed by the source. Returns the updated store and the Go error. -/
def TaskManager.updateStatus (tm : TaskManager) (id : String) (state : String)
    (msg : Option Message) (now : String) : TaskManager × Option String :=
  match mapGet tm.tasks id with
  | none => (tm, some "task not found")
  | some task =>
      let task := { task with status := { state := state, message := msg, timestamp := now } }
      (TaskManager.persistLocked { tm with tasks := mapInsert tm.tasks id task }, none)

/-- The filter of `TaskManager.List`: skip tasks failing the context or
state filter (empty filter strings match everything). -/
def taskFilter (contextID state : String) (task : Task) : Bool :=
  (contextID == "" || task.contextId == contextID) &&
    (state == "" || task.status.state == state)

/-- The body of `TaskManager.List` (internal/types/claude.go lines
318-339) applied to an explicit enumeration `enum` of the stored tasks.
The Go loop ranges over the task map, whose iteration order the runtime
randomises, so `enum` is a parameter; the store only guarantees that it is
some permutation of the stored values. -/
def TaskManager.listWith (enum : List Task) (contextID state : String)
    (limit offset : Nat) : List Task :=
  let result := enum.filter (taskFilter contextID state)
  if result.length ≤ offset then []
  else
    let stop := if 0 < limit ∧ offset + limit < result.length then offset + limit
                else result.length
    (result.take stop).drop offset

/-! ## JSON-RPC layer (internal/jsonrpc) -/

/-- A structured RPC error (`internal/jsonrpc/handler.go`). -/
structure RPCError where
  code : Int
  message : String
deriving Repr, DecidableEq

/-- Error code constants (`internal/jsonrpc/handler.go`). -/
def ErrParseError : Int := -32700

def ErrInvalidRequest : Int := -32600

def ErrMethodNotFound : Int := -32601

def ErrInvalidParams : Int := -32602

def ErrInternalError : Int := -32603

def ErrTaskNotFound : Int := -32001

def ErrTaskNotCancelable : Int := -32002

def ErrAgentNotFound : Int := -32003

/-- A JSON-RPC request as the Unix transport decodes it; the request id is
kept as an opaque string. -/
structure Request where
  jsonrpc : String := ""
  method : String := ""
  id : String := ""
deriving Repr, DecidableEq

/-- A JSON-RPC response line. -/
structure Response where
  jsonrpc : String := "2.0"
  error : Option RPCError := none
  id : String := ""
deriving Repr, DecidableEq

/-! ## Context store (internal/hub/context_manager.go)

The embedded handlers only test context existence and create contexts, so
the store is modelled by its id set in insertion order; a Go `Create` on
an existing id overwrites the record with a fresh one, which the id list
does not distinguish. -/

/-- The context store, reduced to the ids it holds. -/
structure ContextManager where
  ids : List String := []
deriving Repr, DecidableEq

/-- `ContextManager.Create`. -/
def ContextManager.create (cm : ContextManager) (id : String) : ContextManager :=
  if cm.ids.contains id then cm else { ids := cm.ids ++ [id] }

/-- Existence half of `ContextManager.Get`. -/
def ContextManager.exists (cm : ContextManager) (id : String) : Bool :=
  cm.ids.contains id

/-! ## Agent execution model (internal/agents) -/

/-- `types.ExecutionContext`; the timeout is carried in milliseconds. -/
structure ExecutionContext where
  taskId : String := ""
  contextId : String := ""
  userMessage : Message := {}
  previousHistory : List Message := []
  workingDir : String := ""
  timeoutMs : Int := 0
deriving Repr, DecidableEq

/-- `types.ExecutionResult` (artifacts omitted: no embedded operation
reads them). -/
structure ExecutionResult where
  task : Task := {}
  finalState : String := ""
deriving Repr, DecidableEq

/-- What the spawned child process did: captured stdout on a zero exit
status, otherwise the captured stderr buffer and the exit error text. -/
inductive SpawnOutcome where
  | success (stdout : String)
  | failure (stderr : String) (errMsg : String)
deriving Repr, DecidableEq

/-- `extractPrompt` (CLI agent source, lines 384-392): concatenate the
text parts with newlines. No trimming is applied. -/
def extractPrompt (msg : Message) : String :=
  joinWith "\n" ((msg.parts.filter (fun p => p.kind == "text")).map Part.text)

/-- Argument template expansion inside `CLIAgent.Execute`: every literal
`"\x7bprompt\x7d"` element is replaced by the prompt. -/
def substPrompt (args : List String) (prompt : String) : List String :=
  args.map (fun arg => if arg == "{prompt}" then prompt else arg)

/-- Static configuration of a CLI-backed agent. -/
structure CLIConfig where
  agentID : String := ""
  name : String := ""
  exec : String := ""
  args : List String := []
  healthArgs : List String := []
deriving Repr, DecidableEq

/-- `CLIAgent.Execute` (CLI agent source, lines 75-133). The spawned child
is the oracle `run`, applied to the expanded argument vector; `now` is the
wall-clock reading taken for the completed status. The guard returns
before `run` is consulted, so an empty concatenated prompt never spawns. -/
def CLIAgent.execute (cfg : CLIConfig) (run : List String → SpawnOutcome) (now : String)
    (ctx : ExecutionContext) : Except String ExecutionResult :=
  let prompt := extractPrompt ctx.userMessage
  if prompt == "" then .error "empty prompt"
  else
    match run (substPrompt cfg.args prompt) with
    | .failure stderr errMsg =>
        .error (if stderr ≠ "" then trimGo stderr else errMsg)
    | .success out =>
        let text := trimGo out
        let response : Message :=
          { kind := "message", messageId := "resp-" ++ ctx.taskId, role := "agent",
            parts := [{ kind := "text", text := text }],
            taskId := ctx.taskId, contextId := ctx.contextId }
        .ok { task := { kind := "task", id := ctx.taskId, contextId := ctx.contextId,
                        status := { state := TaskStateCompleted, message := some response,
                                    timestamp := now },
                        history := ctx.previousHistory },
              finalState := TaskStateCompleted }

/-! ## Server RPC handlers (hub server source) -/

/-- `extractWorkingDir` (hub server source, lines 131-145). -/
def extractWorkingDir (metadata : Option (List (String × JVal))) : String :=
  match metadata with
  | none => ""
  | some md =>
      match (jlookup md "workingDirectory").bind JVal.asStr with
      | some dir => if trimGo dir ≠ "" then dir else lookupRest md
      | none => lookupRest md
where
  /-- The `workingDir` and `cwd` fallbacks of `extractWorkingDir`. -/
  lookupRest (md : List (String × JVal)) : String :=
    match (jlookup md "workingDir").bind JVal.asStr with
    | some dir => if trimGo dir ≠ "" then dir else lookupCwd md
    | none => lookupCwd md
  /-- The final `cwd` fallback of `extractWorkingDir`. -/
  lookupCwd (md : List (String × JVal)) : String :=
    match (jlookup md "cwd").bind JVal.asStr with
    | some dir => if trimGo dir ≠ "" then dir else ""
    | none => ""

/-- `Server.handleTaskGet`: `InvalidParams` on a missing id, `TaskNotFound`
when the store has no record, otherwise the stored record. -/
def Server.handleTaskGet (tm : TaskManager) (id : String) : Except RPCError Task :=
  if id == "" then .error ⟨ErrInvalidParams, "id required"⟩
  else
    match tm.get id with
    | none => .error ⟨ErrTaskNotFound, "task not found"⟩
    | some task => .ok task

/-- `Server.handleTaskCancel` (hub server source, lines 387-404): reject a
missing record with `TaskNotFound`; reject states `completed`, `failed`
and `canceled` with `TaskNotCancelable`; otherwise set the state to
`canceled` with a fresh timestamp through the pointer returned by
`Get` — the persistence path is not invoked — and answer `canceled: true`. -/
def Server.handleTaskCancel (tm : TaskManager) (id : String) (now : String) :
    TaskManager × Except RPCError Bool :=
  if id == "" then (tm, .error ⟨ErrInvalidParams, "id required"⟩)
  else
    match tm.get id with
    | none => (tm, .error ⟨ErrTaskNotFound, "task not found"⟩)
    | some task =>
        if task.status.state == TaskStateCompleted || task.status.state == TaskStateFailed
            || task.status.state == TaskStateCanceled then
          (tm, .error ⟨ErrTaskNotCancelable, "task not cancelable"⟩)
        else
          let status := { task.status with state := TaskStateCanceled, timestamp := now }
          let task := { task with status := status }
          ({ tm with tasks := mapInsert tm.tasks id task }, .ok true)

/-- The record a successful cancel writes back through the `Get` pointer:
the stored task with state `canceled` and a fresh timestamp. -/
def canceledTask (t : Task) (now : String) : Task :=
  { t with status := { t.status with state := TaskStateCanceled, timestamp := now } }

/-- `Server.handleMessageSend` (hub server source, lines 300-371).
`agents` is the set of registered agent ids, `execute` the target agent
Execute method, `genCtxId`/`genTaskId` the generated ids, and `now1`,
`now2`, `now3` the successive wall-clock readings (task creation, the
transition to `working`, and the final status update). Returns the
updated stores and either the task or the RPC error. -/
def Server.handleMessageSend (agents : List String) (tm : TaskManager) (cm : ContextManager)
    (message : Message) (cfgTimeoutMs : Int) (cfgWorkingDir : String)
    (execute : ExecutionContext → Except String ExecutionResult)
    (genCtxId genTaskId : String) (now1 now2 now3 : String) :
    TaskManager × ContextManager × Except RPCError Task :=
  if message.kind ≠ "message" then
    (tm, cm, .error ⟨ErrInvalidParams, "message required"⟩)
  else
    match message.metadata with
    | none => (tm, cm, .error ⟨ErrInvalidParams, "metadata.targetAgent required"⟩)
    | some md =>
        match (jlookup md "targetAgent").bind JVal.asStr with
        | none => (tm, cm, .error ⟨ErrInvalidParams, "metadata.targetAgent required"⟩)
        | some agentID =>
            if agentID == "" then
              (tm, cm, .error ⟨ErrInvalidParams, "metadata.targetAgent required"⟩)
            else if ¬ agents.contains agentID then
              (tm, cm, .error ⟨ErrAgentNotFound, "agent not found"⟩)
            else
              let contextID := message.contextId
              let (contextID, cm) :=
                if contextID == "" then (genCtxId, cm.create genCtxId) else (contextID, cm)
              let cm := if cm.exists contextID then cm else cm.create contextID
              let taskID := genTaskId
              let message := { message with taskId := taskID, contextId := contextID }
              let task : Task :=
                { kind := "task", id := taskID, contextId := contextID,
                  status := { state := TaskStateSubmitted, timestamp := now1 } }
              let tm := tm.create task
              let tm := (tm.updateStatus taskID TaskStateWorking none now2).1
              let workingDir :=
                if trimGo cfgWorkingDir ≠ "" then cfgWorkingDir
                else extractWorkingDir (some md)
              match execute { taskId := taskID, contextId := contextID,
                              userMessage := message, workingDir := workingDir,
                              timeoutMs := cfgTimeoutMs } with
              | .error e =>
                  let errMsg : Message :=
                    { kind := "message", messageId := "error-" ++ taskID, role := "agent",
                      parts := [{ kind := "text", text := e }],
                      taskId := taskID, contextId := contextID }
                  let tm := (tm.updateStatus taskID TaskStateFailed (some errMsg) now3).1
                  (tm, cm, .error ⟨ErrInternalError, e⟩)
              | .ok result =>
                  let rstatus := result.task.status
                  let rstatus :=
                    { rstatus with
                      message := rstatus.message.map
                        (fun m => { m with contextId := contextID, taskId := taskID }) }
                  let task :=
                    { task with status := rstatus,
                                history := message :: result.task.history,
                                contextId := contextID }
                  let tm := { tm with tasks := mapInsert tm.tasks taskID task }
                  let tm := (tm.updateStatus taskID rstatus.state rstatus.message now3).1
                  let task := { task with status := { rstatus with timestamp := now3 } }
                  (tm, cm, .ok task)

/-! ## Static orchestrator (orchestrator source) -/

/-- `extractMessageText`: concatenate the text parts with newlines and trim
the result (this is the orchestrator variant; the CLI agent
`extractPrompt` does not trim). -/
def extractMessageText (msg : Message) : String :=
  trimGo (joinWith "\n" ((msg.parts.filter (fun p => p.kind == "text")).map Part.text))

/-- `compactStrings`: trim each item and drop the ones that end up empty. -/
def compactStrings (items : List String) : List String :=
  items.filterMap (fun item =>
    let trimmed := trimGo item
    if trimmed == "" then none else some trimmed)

/-- `splitPrompt` (orchestrator source, lines 384-398): the first matching
delimiter wins — newlines, then `;`, then the literal infix `" and "` —
otherwise the prompt is kept whole. -/
def splitPrompt (prompt : String) : List String :=
  if containsSub prompt "\n" then compactStrings (goSplit prompt "\n")
  else if containsSub prompt ";" then compactStrings (goSplit prompt ";")
  else if containsSub prompt " and " then compactStrings (goSplit prompt " and ")
  else [prompt]

/-- The fragment-to-delegate assignment of `Orchestrator.Execute`
(orchestrator source, lines 280-306): fragment `i` goes to
`delegates[i mod len(delegates)]`, and the sub-prompt sent is the trimmed
fragment. The caller guarantees `delegates` is non-empty. -/
def orchestratorAssignments (prompt : String) (delegates : List String) :
    List (String × String) :=
  let parts := splitPrompt prompt
  let parts := if parts.isEmpty then [prompt] else parts
  (List.range parts.length).map (fun i =>
    (delegates.getD (i % delegates.length) "", trimGo (parts.getD i "")))

/-! ## LLM orchestrator (LLM orchestrator source) -/

/-- `maxRoutingTargets`. -/
def maxRoutingTargets : Nat := 3

/-- A parsed routing target (`routingTarget`), with the `agent` and `task`
aliases the parser accepts. -/
structure RoutingTarget where
  agentId : String := ""
  agent : String := ""
  message : String := ""
  task : String := ""
deriving Repr, DecidableEq

/-- `firstNonEmpty`: the first value that is non-empty after trimming,
returned untrimmed; otherwise the empty string. -/
def firstNonEmpty (values : List String) : String :=
  match values.find? (fun v => trimGo v ≠ "") with
  | some v => v
  | none => ""

/-- `normalizeTargets` (LLM orchestrator source, lines 361-385): drop
targets whose trimmed id is empty or not a configured delegate; default an
empty trimmed message to `fallbackMessage` (the original prompt). -/
def normalizeTargets (targets : List RoutingTarget) (delegates : List String)
    (fallbackMessage : String) : List RoutingTarget :=
  if targets.isEmpty then []
  else
    targets.filterMap (fun target =>
      let agentID := trimGo (firstNonEmpty [target.agentId, target.agent])
      if agentID == "" then none
      else if ¬ delegates.contains agentID then none
      else
        let message := trimGo (firstNonEmpty [target.message, target.task])
        let message := if message == "" then fallbackMessage else message
        some { agentId := agentID, message := message })

/-- The target-selection and note-prefix logic of `LLMOrchestrator.Execute`
(LLM orchestrator source, lines 107-127). `routeErr` is the error from
`routeTargets` (send failure or unparsable router reply) — when it is set,
`rawTargets` and `notes` are empty, and a one-line routing fallback note
is prepended. The normalised target list falls back to
`delegates[0]` with the original prompt when empty, and is capped at
`maxRoutingTargets`. Returns the dispatched targets and the note lines
prepended to the aggregated reply. -/
def llmSelect (routeErr : Option String) (rawTargets : List RoutingTarget) (notes : String)
    (delegates : List String) (prompt : String) : List RoutingTarget × List String :=
  let routingNote :=
    match routeErr with
    | some e => ["note: routing fallback used (" ++ e ++ ")"]
    | none => []
  let targets := normalizeTargets rawTargets delegates prompt
  let targets :=
    if targets.isEmpty then [{ agentId := delegates.getD 0 "", message := prompt }]
    else targets
  let targets :=
    if maxRoutingTargets < targets.length then targets.take maxRoutingTargets else targets
  let noteLines := routingNote ++ (if notes ≠ "" then ["note: " ++ trimGo notes] else [])
  (targets, noteLines)

/-! ## Claude configuration layer (internal/types/claude.go, Claude agent source) -/

/-- `types.ClaudeConfig`; the Go field `Continue` is spelled
`continueFlag` because `continue` is reserved in Lean do-notation. -/
structure ClaudeConfig where
  continueFlag : Bool := false
  sessionId : String := ""
  model : String := ""
  toolProfile : String := ""
  allowedTools : List String := []
deriving Repr, DecidableEq

/-- `types.ToolProfiles` (internal/types/claude.go lines 24-28). -/
def ToolProfiles : List (String × List String) :=
  [("safe", ["Read", "Glob", "Grep", "LSP"]),
   ("normal", ["Read", "Glob", "Grep", "Edit", "Write", "LSP", "WebFetch", "WebSearch"]),
   ("full", [])]

/-- `types.GetToolsForProfile`: the profile map entry, or nil. -/
def GetToolsForProfile (profile : String) : List String :=
  match ToolProfiles.find? (fun p => p.1 == profile) with
  | some p => p.2
  | none => []

/-- `types.ValidClaudeModels` (internal/types/claude.go lines 61-63). -/
def ValidClaudeModels : List String := ["", "opus", "sonnet", "haiku"]

/-- `ClaudeAgent.extractClaudeConfig` (Claude agent source, lines 63-101):
start from the default config and overwrite the five recognised keys of
`metadata["claudeConfig"]` when present with the asserted type; every
other key is never read, and no value is validated. -/
def ClaudeAgent.extractClaudeConfig (defaultConfig : ClaudeConfig)
    (metadata : Option (List (String × JVal))) : ClaudeConfig :=
  match metadata with
  | none => defaultConfig
  | some md =>
      match (jlookup md "claudeConfig").bind JVal.asObj with
      | none => defaultConfig
      | some cfgMap =>
          let c := defaultConfig
          let c := match (jlookup cfgMap "continue").bind JVal.asBool with
                   | some b => { c with continueFlag := b }
                   | none => c
          let c := match (jlookup cfgMap "sessionId").bind JVal.asStr with
                   | some s => { c with sessionId := s }
                   | none => c
          let c := match (jlookup cfgMap "model").bind JVal.asStr with
                   | some m => { c with model := m }
                   | none => c
          let c := match (jlookup cfgMap "toolProfile").bind JVal.asStr with
                   | some p => { c with toolProfile := p }
                   | none => c
          let c := match (jlookup cfgMap "allowedTools").bind JVal.asArr with
                   | some ts => { c with allowedTools := ts.filterMap JVal.asStr }
                   | none => c
          c

/-- `ClaudeAgent.buildArgs` (Claude agent source, lines 104-133): rebuild
the argument vector from the merged config; the model string is passed to
`--model` verbatim whenever non-empty. -/
def ClaudeAgent.buildArgs (config : ClaudeConfig) : List String :=
  let args : List String := []
  let args :=
    if config.continueFlag then args ++ ["--continue"]
    else if config.sessionId ≠ "" then args ++ ["--resume", config.sessionId]
    else args
  let args :=
    if config.model ≠ "" then args ++ ["--model", config.model] else args
  let args :=
    if ¬ config.allowedTools.isEmpty then
      args ++ ["--allowedTools", joinWith "," config.allowedTools]
    else if config.toolProfile ≠ "" then
      let tools := GetToolsForProfile config.toolProfile
      if ¬ tools.isEmpty then args ++ ["--allowedTools", joinWith "," tools]
      else args
    else args
  args ++ ["-p", "{prompt}", "--output-format", "text"]

/-! ## Gemini configuration layer (Gemini agent source) -/

/-- `types.GeminiConfig`. -/
structure GeminiConfig where
  model : String := ""
  resume : String := ""
  sandbox : Bool := false
  approvalMode : String := ""
  allowedTools : List String := []
  includeDirectories : List String := []
deriving Repr, DecidableEq

/-- `GeminiAgent.extractGeminiConfig` (Gemini agent source, lines 64-104):
same shape as the Claude extraction, over `metadata["geminiConfig"]`; the
`resume` key wins over its `sessionId` alias, and no value is validated. -/
def GeminiAgent.extractGeminiConfig (defaultConfig : GeminiConfig)
    (metadata : Option (List (String × JVal))) : GeminiConfig :=
  match metadata with
  | none => defaultConfig
  | some md =>
      match (jlookup md "geminiConfig").bind JVal.asObj with
      | none => defaultConfig
      | some cfgMap =>
          let c := defaultConfig
          let c := match (jlookup cfgMap "model").bind JVal.asStr with
                   | some m => { c with model := m }
                   | none => c
          let c := match (jlookup cfgMap "resume").bind JVal.asStr with
                   | some r => { c with resume := r }
                   | none =>
                       match (jlookup cfgMap "sessionId").bind JVal.asStr with
                       | some sid => { c with resume := sid }
                       | none => c
          let c := match (jlookup cfgMap "sandbox").bind JVal.asBool with
                   | some b => { c with sandbox := b }
                   | none => c
          let c := match (jlookup cfgMap "approvalMode").bind JVal.asStr with
                   | some m => { c with approvalMode := m }
                   | none => c
          let c := match (jlookup cfgMap "allowedTools").bind JVal.asArr with
                   | some ts => { c with allowedTools := ts.filterMap JVal.asStr }
                   | none => c
          let c := match (jlookup cfgMap "includeDirectories").bind JVal.asArr with
                   | some ds => { c with includeDirectories := ds.filterMap JVal.asStr }
                   | none => c
          c

/-- `GeminiAgent.buildArgs` (Gemini agent source, lines 107-138). -/
def GeminiAgent.buildArgs (config : GeminiConfig) : List String :=
  let args : List String := []
  let args := if config.resume ≠ "" then args ++ ["--resume", config.resume] else args
  let args := if config.model ≠ "" then args ++ ["--model", config.model] else args
  let args := if config.sandbox then args ++ ["--sandbox"] else args
  let args :=
    if config.approvalMode ≠ "" then args ++ ["--approval-mode", config.approvalMode]
    else args
  let args :=
    if ¬ config.allowedTools.isEmpty then
      args ++ ["--allowed-tools", joinWith "," config.allowedTools]
    else args
  let args :=
    if ¬ config.includeDirectories.isEmpty then
      args ++ ["--include-directories", joinWith "," config.includeDirectories]
    else args
  args ++ ["{prompt}", "-o", "text"]

/-! ## Unix socket transport (internal/transport/unix.go) -/

/-- Default `bufio.Scanner` token cap (`bufio.MaxScanTokenSize`): the
connection handler never calls `scanner.Buffer`, so lines above 64 KiB
make `Scan` fail with `ErrTooLong` and end the loop. -/
def maxScanTokenSize : Nat := 65536

/-- One wire line as the scanner sees it: its byte length and the outcome
of `json.Unmarshal` on its content (`none` when the bytes are not a valid
request object). -/
structure WireLine where
  len : Nat
  parsed : Option Request
deriving Repr, DecidableEq

/-- The `ParseError` response line written for undecodable input. -/
def parseErrorResponse : Response :=
  { jsonrpc := "2.0", error := some ⟨ErrParseError, "Parse error"⟩ }

/-- `UnixTransport.handleConn` (internal/transport/unix.go lines 47-63):
scan the connection line by line; a line that fails to decode yields a
`ParseError` response and scanning continues; any other line is dispatched
through the handler `h`. A line longer than the scanner token cap makes
`Scan` return false, silently ending the loop — the scanner error is
never inspected and no response is written for that line or any later
one. -/
def UnixTransport.handleConn (h : Request → Response) : List WireLine → List Response
  | [] => []
  | line :: rest =>
      if maxScanTokenSize < line.len then []
      else
        match line.parsed with
        | none => parseErrorResponse :: UnixTransport.handleConn h rest
        | some req => h req :: UnixTransport.handleConn h rest

/-! ## Helper lemmas about the association-list map -/

/-- After a replacing insert, the key is bound to the new value. -/
theorem find_map_insert (m : List (String × Task)) (k : String) (v : Task)
    (h : m.any (fun p => p.1 == k) = true) :
    (m.map (fun p => if p.1 == k then (k, v) else p)).find? (fun p => p.1 == k) = some (k, v) := by
  induction m with
  | nil => simp at h
  | cons p rest ih =>
      rcases p with ⟨a, b⟩
      by_cases hp : a = k
      · subst hp
        simp [List.find?_cons]
      · have hp2 : (a == k) = false := by simpa using hp
        simp only [List.any_cons, hp2, Bool.false_or] at h
        simp only [List.map_cons, hp2, Bool.false_eq_true, if_false]
        rw [List.find?_cons_of_neg _ (by simp [hp2])]
        exact ih h

/-- After an appending insert, the key is bound to the new value. -/
theorem find_append_self (m : List (String × Task)) (k : String) (v : Task)
    (h : m.any (fun p => p.1 == k) = false) :
    (m ++ [(k, v)]).find? (fun p => p.1 == k) = some (k, v) := by
  induction m with
  | nil => simp
  | cons p rest ih =>
      simp only [List.any_cons, Bool.or_eq_false_iff] at h
      simp only [List.cons_append]
      rw [List.find?_cons_of_neg _ (by simp [h.1])]
      exact ih h.2

/-- Reading back the key just written. -/
theorem mapGet_mapInsert_self (m : List (String × Task)) (k : String) (v : Task) :
    mapGet (mapInsert m k v) k = some v := by
  unfold mapInsert mapGet
  by_cases h : m.any (fun p => p.1 == k) = true
  · rw [if_pos h, find_map_insert m k v h]
    rfl
  · have h2 : m.any (fun p => p.1 == k) = false := by
      cases hb : m.any (fun p => p.1 == k) with
      | true => exact absurd hb h
      | false => rfl
    rw [if_neg h, find_append_self m k v h2]
    rfl

/-- A successful map read means the pair is stored. -/
theorem mapGet_mem (m : List (String × Task)) (k : String) (t : Task)
    (h : mapGet m k = some t) : (k, t) ∈ m := by
  unfold mapGet at h
  cases hf : m.find? (fun p => p.1 == k) with
  | none => rw [hf] at h; simp at h
  | some p =>
      rw [hf] at h
      simp at h
      have hmem := List.mem_of_find?_eq_some hf
      have hkey := List.find?_some hf
      simp only [beq_iff_eq] at hkey
      have : p = (k, t) := by
        cases p with
        | mk a b => simp_all
      rw [← this]; exact hmem

/-- Writing one key keeps every pair stored under a different key among
the stored values. -/
theorem mem_values_mapInsert (m : List (String × Task)) (k k2 : String) (v0 v2 : Task)
    (hne : k ≠ k2) (hmem : (k, v0) ∈ m) :
    v0 ∈ (mapInsert m k2 v2).map Prod.snd := by
  unfold mapInsert
  by_cases h : m.any (fun p => p.1 == k2) = true
  · simp only [h, if_true]
    have : (k, v0) ∈ m.map (fun p => if p.1 == k2 then (k2, v2) else p) := by
      have := List.mem_map_of_mem (f := fun p => if p.1 == k2 then (k2, v2) else p) hmem
      simpa [hne] using this
    exact List.mem_map_of_mem Prod.snd this
  · simp only [Bool.not_eq_true] at h
    simp only [h, Bool.false_eq_true, if_false]
    exact List.mem_map_of_mem Prod.snd (List.mem_append_left _ hmem)

/-! ## Claim theorems -/

/-- C1: the Task Store claim says every `UpdateStatus` is validated
against the state machine and terminal tasks are immutable. The source of
`TaskManager.UpdateStatus` contains no validation at all: at the failing
input — a store holding task `t1` in the terminal state `completed` — an
`UpdateStatus` back to `working` succeeds (returns no error) and
overwrites the state, the message and the timestamp of the terminal
record, contradicting the state machine the repository documents. -/
theorem C1_updateStatus_mutates_terminal_task :
    (let tm : TaskManager :=
      { tasks := [("t1", { kind := "task", id := "t1",
                           status := { state := TaskStateCompleted, message := none,
                                       timestamp := "T0" } })],
        persistPath := "tasks.json" }
    let out := tm.updateStatus "t1" TaskStateWorking none "T1"
    out.2 = none ∧
      (out.1.get "t1").map (fun t => t.status.state) = some TaskStateWorking ∧
      (out.1.get "t1").map (fun t => t.status.timestamp) = some "T1") :=
  ⟨rfl, rfl, rfl⟩

/-- C2 counterexample: the claim says every terminal state is rejected by
`tasks/cancel` with `TaskNotCancelable`. The state machine of section 3
makes `rejected` terminal, yet the handler only checks `completed`,
`failed` and `canceled`: cancelling a task stored in state `rejected`
answers `canceled: true` and rewrites the terminal record to `canceled`. -/
theorem C2_cancel_rejected_counterexample :
    (let tm : TaskManager :=
      { tasks := [("tr", { kind := "task", id := "tr",
                           status := { state := TaskStateRejected, message := none,
                                       timestamp := "T0" } })] }
    let out := Server.handleTaskCancel tm "tr" "T1"
    out.2 = .ok true ∧
      (out.1.get "tr").map (fun t => t.status.state) = some TaskStateCanceled) :=
  ⟨rfl, rfl⟩

/-- C2 amended: `tasks/cancel` answers `TaskNotFound` on an unknown id and
`TaskNotCancelable` exactly on the states `completed`, `failed` and
`canceled` (the terminal state `rejected` is not checked and is treated as
cancelable); on a `working` task it answers `canceled: true`, the record
moves to the terminal state `canceled` with the fresh timestamp, and a
subsequent `tasks/get` returns that canceled record. -/
theorem C2_cancel_behaviour (tm : TaskManager) (id now : String) (hid : id ≠ "") :
    (tm.get id = none →
      Server.handleTaskCancel tm id now = (tm, .error ⟨ErrTaskNotFound, "task not found"⟩)) ∧
    (∀ t, tm.get id = some t →
      (t.status.state = TaskStateCompleted ∨ t.status.state = TaskStateFailed ∨
          t.status.state = TaskStateCanceled) →
      Server.handleTaskCancel tm id now =
        (tm, .error ⟨ErrTaskNotCancelable, "task not cancelable"⟩)) ∧
    (∀ t, tm.get id = some t → t.status.state = TaskStateWorking →
      (Server.handleTaskCancel tm id now).2 = .ok true ∧
      Server.handleTaskGet (Server.handleTaskCancel tm id now).1 id =
        .ok { t with status := { t.status with state := TaskStateCanceled, timestamp := now } }) := by
  refine ⟨?_, ?_, ?_⟩
  · intro hnone
    simp [Server.handleTaskCancel, hid, hnone]
  · intro t hget hterm
    have hb : (t.status.state == TaskStateCompleted || t.status.state == TaskStateFailed
        || t.status.state == TaskStateCanceled) = true := by
      rcases hterm with h | h | h <;> simp [h]
    simp [Server.handleTaskCancel, hid, hget, hb]
  · intro t hget hw
    have hb : (t.status.state == TaskStateCompleted || t.status.state == TaskStateFailed
        || t.status.state == TaskStateCanceled) = false := by
      simp [hw, TaskStateWorking, TaskStateCompleted, TaskStateFailed, TaskStateCanceled]
    constructor
    · simp [Server.handleTaskCancel, hid, hget, hb]
    · simp only [Server.handleTaskCancel, hid, if_false, hget, hb, Bool.false_eq_true]
      simp [Server.handleTaskGet, hid, TaskManager.get, mapGet_mapInsert_self]

/-- C2 witness: the amended cancel behaviour at a concrete store holding
one working task. -/
theorem C2_cancel_behaviour_witness :
    ("t1" ≠ "" ∧
      (let tm : TaskManager :=
        { tasks := [("t1", { kind := "task", id := "t1",
                             status := { state := TaskStateWorking, message := none,
                                         timestamp := "T0" } })] }
      (Server.handleTaskCancel tm "t1" "T1").2 = .ok true)) := by
  refine ⟨by decide, ?_⟩
  have h := (C2_cancel_behaviour
      { tasks := [("t1", { kind := "task", id := "t1",
                           status := { state := TaskStateWorking, message := none,
                                       timestamp := "T0" } })] }
      "t1" "T1" (by decide)).2.2
      { kind := "task", id := "t1",
        status := { state := TaskStateWorking, message := none, timestamp := "T0" } }
      (by decide) (by decide)
  exact h.1

/-- C10: a successful `tasks/cancel` answers `canceled: true` and rewrites
the stored record in place (state `canceled`, fresh timestamp) through the
pointer obtained from `Get`, but never invokes the persistence path — the
`tasks.json` snapshot field is exactly what it was before the call. Only a
later store mutation (here: an `UpdateStatus` of a different, present
task id while a persistence path is configured) writes a snapshot, and
that snapshot then contains the canceled record. -/
theorem C10_cancel_skips_persistence (tm : TaskManager) (id now : String) (t : Task)
    (hid : id ≠ "") (hget : tm.get id = some t)
    (h1 : t.status.state ≠ TaskStateCompleted) (h2 : t.status.state ≠ TaskStateFailed)
    (h3 : t.status.state ≠ TaskStateCanceled) :
    (Server.handleTaskCancel tm id now).2 = .ok true ∧
    (Server.handleTaskCancel tm id now).1.persisted = tm.persisted ∧
    (Server.handleTaskCancel tm id now).1.get id = some (canceledTask t now) ∧
    (∀ id2 st msg now2, id2 ≠ id →
      ((Server.handleTaskCancel tm id now).1.updateStatus id2 st msg now2).2 = none →
      tm.persistPath ≠ "" →
      canceledTask t now ∈
        (((Server.handleTaskCancel tm id now).1.updateStatus id2 st msg now2).1.persisted.getD [])) := by
  have hb : (t.status.state == TaskStateCompleted || t.status.state == TaskStateFailed
      || t.status.state == TaskStateCanceled) = false := by
    simp [h1, h2, h3]
  have hcancel : Server.handleTaskCancel tm id now =
      ({ tm with tasks := mapInsert tm.tasks id (canceledTask t now) }, .ok true) := by
    simp [Server.handleTaskCancel, hid, hget, hb, canceledTask]
  rw [hcancel]
  refine ⟨rfl, rfl, ?_, ?_⟩
  · exact mapGet_mapInsert_self _ _ _
  · intro id2 st msg now2 hne hupd hpath
    simp only [TaskManager.updateStatus] at hupd ⊢
    cases hget2 : mapGet (mapInsert tm.tasks id (canceledTask t now)) id2 with
    | none => rw [hget2] at hupd; simp at hupd
    | some t2 =>
        have hmem : (id, canceledTask t now) ∈ mapInsert tm.tasks id (canceledTask t now) :=
          mapGet_mem _ _ _ (mapGet_mapInsert_self _ _ _)
        have hpb : (tm.persistPath == "") = false := by
          simpa using hpath
        simp only [TaskManager.persistLocked, hpb, Bool.false_eq_true, if_false,
          Option.getD_some]
        exact mem_values_mapInsert _ id id2 _ _ hne.symm hmem

/-- C10 witness: at a concrete store holding a working task t1 and a
completed task t2 with persistence configured, cancelling t1 leaves the
snapshot untouched and the next UpdateStatus of t2 writes a snapshot
containing the canceled t1. -/
theorem C10_cancel_skips_persistence_witness :
    ("t1" : String) ≠ "" ∧
    ((let tm : TaskManager :=
        { tasks := [("t1", { kind := "task", id := "t1",
                             status := { state := TaskStateWorking, message := none,
                                         timestamp := "T0" } }),
                    ("t2", { kind := "task", id := "t2",
                             status := { state := TaskStateCompleted, message := none,
                                         timestamp := "T0" } })],
          persistPath := "tasks.json", persisted := none }
      (Server.handleTaskCancel tm "t1" "T1").1.persisted = tm.persisted ∧
      ({ kind := "task", id := "t1",
         status := { state := TaskStateCanceled, message := none,
                     timestamp := "T1" } } : Task) ∈
        (((Server.handleTaskCancel tm "t1" "T1").1.updateStatus "t2"
            TaskStateCompleted none "T2").1.persisted.getD []))) := by
  have h := C10_cancel_skips_persistence
      { tasks := [("t1", { kind := "task", id := "t1",
                           status := { state := TaskStateWorking, message := none,
                                       timestamp := "T0" } }),
                  ("t2", { kind := "task", id := "t2",
                           status := { state := TaskStateCompleted, message := none,
                                       timestamp := "T0" } })],
        persistPath := "tasks.json", persisted := none }
      "t1" "T1"
      { kind := "task", id := "t1",
        status := { state := TaskStateWorking, message := none, timestamp := "T0" } }
      (by decide) rfl (by decide) (by decide) (by decide)
  exact ⟨by decide, h.2.1,
    h.2.2.2 "t2" TaskStateCompleted none "T2" (by decide) rfl (by decide)⟩

/-- C7 counterexample: the claim says `List` paginates the filtered
snapshot in insertion order, so its output is determined by the stored
tasks. The Go loop ranges over a map whose iteration order the runtime
randomises: with the same two stored tasks, the enumeration `[t2, t1]` is
a permutation of the insertion order `[t1, t2]` that the runtime may
produce, and the two enumerations give different results for the same
filters, so the claimed insertion-order determinism fails. -/
theorem C7_list_order_counterexample :
    List.Perm [({ id := "t2" } : Task), { id := "t1" }]
      [({ id := "t1" } : Task), { id := "t2" }] ∧
    TaskManager.listWith [{ id := "t2" }, { id := "t1" }] "" "" 0 0 ≠
      TaskManager.listWith [{ id := "t1" }, { id := "t2" }] "" "" 0 0 :=
  ⟨List.Perm.swap _ _ _, by decide⟩

/-- C7 amended: `List` filters the snapshotted enumeration by context id
and state and then paginates with offset and limit — every returned task
satisfies the filters and appears in the snapshot, the result is a
sublist of (hence ordered like) the enumeration the map iteration
produced, and a positive limit bounds the result length; but the
enumeration order is the map iteration order, which Go does not fix, so
insertion order and cross-call determinism are not guaranteed. -/
theorem C7_list_paginates_filtered (enum : List Task) (cid st : String) (lim off : Nat) :
    (∀ t ∈ TaskManager.listWith enum cid st lim off, taskFilter cid st t = true ∧ t ∈ enum) ∧
    List.Sublist (TaskManager.listWith enum cid st lim off) enum ∧
    (0 < lim → (TaskManager.listWith enum cid st lim off).length ≤ lim) := by
  simp only [TaskManager.listWith]
  split_ifs with hoff hstop
  · exact ⟨by simp, by simp, by simp⟩
  · refine ⟨?_, ?_, ?_⟩
    · intro t ht
      have hmem : t ∈ enum.filter (taskFilter cid st) :=
        List.mem_of_mem_take (List.mem_of_mem_drop ht)
      exact ⟨List.of_mem_filter hmem, List.mem_of_mem_filter hmem⟩
    · exact ((List.drop_sublist _ _).trans (List.take_sublist _ _)).trans
        (List.filter_sublist _)
    · intro _
      rw [List.length_drop, List.length_take]
      omega
  · refine ⟨?_, ?_, ?_⟩
    · intro t ht
      have hmem : t ∈ enum.filter (taskFilter cid st) :=
        List.mem_of_mem_take (List.mem_of_mem_drop ht)
      exact ⟨List.of_mem_filter hmem, List.mem_of_mem_filter hmem⟩
    · exact ((List.drop_sublist _ _).trans (List.take_sublist _ _)).trans
        (List.filter_sublist _)
    · intro hlim
      rw [List.length_drop, List.length_take]
      omega

/-- C7 witness: the amended pagination facts at a concrete enumeration
with a positive limit. -/
theorem C7_list_paginates_filtered_witness :
    (0 < 1 ∧
      (TaskManager.listWith [({ id := "t1" } : Task), { id := "t2" }] "" "" 1 0).length ≤ 1) :=
  ⟨by decide,
    (C7_list_paginates_filtered [{ id := "t1" }, { id := "t2" }] "" "" 1 0).2.2 (by decide)⟩

/-- Fragments surviving `compactStrings` are never empty. -/
theorem compactStrings_mem_ne_empty (items : List String) :
    ∀ s ∈ compactStrings items, s ≠ "" := by
  intro s hs
  unfold compactStrings at hs
  obtain ⟨a, _, ha⟩ := List.mem_filterMap.mp hs
  by_cases ht : trimGo a = ""
  · simp [ht] at ha
  · simp only [ht, if_false] at ha
    split at ha
    · exact absurd ha (by simp)
    · cases ha
      exact ht

/-- C3 counterexample: the claim's concrete example is wrong. Because the
first matching delimiter rule splits `"a\nb and c"` on newlines only, the
sub-prompts are `["a", "b and c"]` routed to `[x, y]` — not
`["a", "b", "c"]` routed to `[x, y, x]` as the claim states. -/
theorem C3_example_counterexample :
    orchestratorAssignments "a\nb and c" ["x", "y"] = [("x", "a"), ("y", "b and c")] ∧
    orchestratorAssignments "a\nb and c" ["x", "y"] ≠ [("x", "a"), ("y", "b"), ("x", "c")] := by
  constructor
  · decide
  · decide

/-- C3 amended: the decomposition applies the first matching delimiter
rule (newlines first), fragments that trim to empty are dropped, and
fragment `i` is assigned to `delegates[i mod len(delegates)]` with the
trimmed fragment as its sub-prompt; for the prompt `"a\nb and c"` with
delegates `[x, y]` this yields sub-prompts `["a", "b and c"]` dispatched
to `[x, y]`. -/
theorem C3_split_round_robin (prompt : String) (delegates : List String) (i : Nat) :
    (containsSub prompt "\n" = true →
      splitPrompt prompt = compactStrings (goSplit prompt "\n") ∧
      ∀ s ∈ splitPrompt prompt, s ≠ "") ∧
    (i < (splitPrompt prompt).length → delegates ≠ [] →
      (orchestratorAssignments prompt delegates).get? i =
        some (delegates.getD (i % delegates.length) "",
          trimGo ((splitPrompt prompt).getD i ""))) ∧
    orchestratorAssignments "a\nb and c" ["x", "y"] = [("x", "a"), ("y", "b and c")] := by
  refine ⟨?_, ?_, by decide⟩
  · intro h
    have hsplit : splitPrompt prompt = compactStrings (goSplit prompt "\n") := by
      simp [splitPrompt, h]
    refine ⟨hsplit, ?_⟩
    rw [hsplit]
    exact compactStrings_mem_ne_empty _
  · intro hi hd
    have hne : (splitPrompt prompt).isEmpty = false := by
      cases hsp : splitPrompt prompt with
      | nil => rw [hsp] at hi; simp at hi
      | cons a l => simp
    simp only [orchestratorAssignments, hne, Bool.false_eq_true, if_false]
    rw [List.get?_map, List.get?_range hi]
    rfl

/-- C3 witness: the amended decomposition facts at the prompt
`"a\nb"` with one delegate. -/
theorem C3_split_round_robin_witness :
    (containsSub "a\nb" "\n" = true ∧ (∀ s ∈ splitPrompt "a\nb", s ≠ "")) ∧
    (0 < (splitPrompt "a\nb").length ∧ (["x"] : List String) ≠ [] ∧
      (orchestratorAssignments "a\nb" ["x"]).get? 0 = some ("x", "a")) := by
  have h := C3_split_round_robin "a\nb" ["x"] 0
  exact ⟨⟨by decide, (h.1 (by decide)).2⟩,
    ⟨by decide, by decide, h.2.1 (by decide) (by decide)⟩⟩

/-- Every target surviving `normalizeTargets` carries a configured
delegate id. -/
theorem mem_normalizeTargets_contains (ts : List RoutingTarget) (d : List String) (p : String) :
    ∀ t ∈ normalizeTargets ts d p, d.contains t.agentId = true := by
  intro t ht
  unfold normalizeTargets at ht
  split at ht
  · simp at ht
  · obtain ⟨raw, _, hraw⟩ := List.mem_filterMap.mp ht
    dsimp only at hraw
    split at hraw
    · exact absurd hraw (by simp)
    · split at hraw
      · exact absurd hraw (by simp)
      · rename_i hcont
        cases hraw
        simpa using hcont

/-- C4 counterexample: the claim says that when zero valid targets remain
the orchestrator both falls back to `delegates[0]` and prepends a routing
fallback note. At the concrete input where the router reply parses
successfully but its only target names an unknown agent, normalisation
leaves zero targets and the fallback to `delegates[0]` happens, yet the
prepended note list is empty — the note is only produced when parsing
itself fails. -/
theorem C4_silent_fallback_counterexample :
    normalizeTargets [{ agentId := "unknown", message := "m" }] ["x"] "p" = [] ∧
    llmSelect none [{ agentId := "unknown", message := "m" }] "" ["x"] "p" =
      ([{ agentId := "x", message := "p" }], []) := by
  exact ⟨rfl, rfl⟩

/-- C4 amended: targets with an unknown or blank agent id are dropped; a
kept target whose trimmed message is empty gets the original prompt; at
most three targets survive (the first three); when routing errored (send
failure or unparsable reply) the original prompt goes to `delegates[0]`
with a one-line routing fallback note prepended; when parsing succeeded
but zero valid targets remain, the same fallback to `delegates[0]`
happens silently — no note is prepended. -/
theorem C4_routing_normalisation (r : Option String) (ts : List RoutingTarget)
    (notes : String) (d : List String) (p : String) (e : String) (hd : d ≠ []) :
    (∀ t ∈ (llmSelect r ts notes d p).1, d.contains t.agentId = true) ∧
    (∀ (t : RoutingTarget) (a : String),
      trimGo (firstNonEmpty [t.agentId, t.agent]) = a → a ≠ "" → d.contains a = true →
      normalizeTargets [t] d p =
        [{ agentId := a,
           message := if trimGo (firstNonEmpty [t.message, t.task]) == "" then p
                      else trimGo (firstNonEmpty [t.message, t.task]) }]) ∧
    ((llmSelect r ts notes d p).1.length ≤ maxRoutingTargets) ∧
    (llmSelect (some e) [] "" d p =
      ([{ agentId := d.getD 0 "", message := p }],
        ["note: routing fallback used (" ++ e ++ ")"])) ∧
    (normalizeTargets ts d p = [] →
      llmSelect none ts "" d p = ([{ agentId := d.getD 0 "", message := p }], [])) := by
  refine ⟨?_, ?_, ?_, rfl, ?_⟩
  · intro t ht
    simp only [llmSelect] at ht
    set L := (if (normalizeTargets ts d p).isEmpty then
        [({ agentId := d.getD 0 "", message := p } : RoutingTarget)]
      else normalizeTargets ts d p) with hLdef
    have hL : t ∈ L := by
      split at ht
      · exact List.mem_of_mem_take ht
      · exact ht
    rw [hLdef] at hL
    split at hL
    · simp only [List.mem_singleton] at hL
      subst hL
      cases d with
      | nil => exact absurd rfl hd
      | cons a l => simp
    · exact mem_normalizeTargets_contains ts d p t hL
  · intro t a ha hne hcont
    have hb : (a == "") = false := by simpa using hne
    simp only [normalizeTargets, List.isEmpty_cons, Bool.false_eq_true, if_false,
      List.filterMap_cons, List.filterMap_nil, ha, hb, hcont]
    simp
  · simp only [llmSelect]
    set L := (if (normalizeTargets ts d p).isEmpty then
        [({ agentId := d.getD 0 "", message := p } : RoutingTarget)]
      else normalizeTargets ts d p) with hLdef
    unfold maxRoutingTargets
    split
    · rename_i hlen
      rw [List.length_take]
      omega
    · rename_i hlen
      omega
  · intro h0
    simp only [llmSelect, h0]
    rfl

/-- C4 witness: the routing fallback facts at a concrete delegate list,
applying the amended theorem. -/
theorem C4_routing_normalisation_witness :
    ((["x", "y"] : List String) ≠ [] ∧
      llmSelect (some "boom") [] "" ["x", "y"] "p" =
        ([{ agentId := "x", message := "p" }], ["note: routing fallback used (boom)"])) :=
  ⟨by decide,
    (C4_routing_normalisation (some "boom") [] "" ["x", "y"] "p" "boom"
      (by decide)).2.2.2.1⟩

/-- C5 counterexample: the claim says a user message whose concatenated
text is blank after trimming (including whitespace-only text) makes the
CLI agent Execute fail with EmptyPrompt without spawning. At the concrete
input with the single text part `" "`, the concatenated prompt is `" "`,
which is blank after trimming but not the empty string, so the guard does
not fire: the child is spawned (here echoing `Hi`) and the call completes
instead of failing. -/
theorem C5_blank_prompt_counterexample :
    (trimGo (extractPrompt { kind := "message", messageId := "m1", role := "user",
                             parts := [{ kind := "text", text := " " }] }) = "" ∧
     CLIAgent.execute { agentID := "claude-code", exec := "claude", args := ["-p", "{prompt}"] }
        (fun _ => .success "Hi") "T"
        { taskId := "t1", contextId := "c1",
          userMessage := { kind := "message", messageId := "m1", role := "user",
                           parts := [{ kind := "text", text := " " }] } } =
      .ok { task := { kind := "task", id := "t1", contextId := "c1",
                      status := { state := TaskStateCompleted,
                                  message := some { kind := "message", messageId := "resp-t1",
                                                    role := "agent",
                                                    parts := [{ kind := "text", text := "Hi" }],
                                                    taskId := "t1", contextId := "c1" },
                                  timestamp := "T" } },
            finalState := TaskStateCompleted }) :=
  ⟨rfl, rfl⟩

/-- C5 amended: the CLI agent Execute fails with the empty-prompt error
exactly when the newline-concatenation of the text parts is the empty
string — no trimming is applied, so whitespace-only text is passed to the
spawned executable as the prompt; the failure does not consult the child
process (the result is the same for every spawn oracle); and a
`message/send` whose target agent hits this guard surfaces the failure
as `InternalError` with message text `empty prompt` (not as
`InvalidParams`). -/
theorem C5_empty_prompt_behaviour (cfg : CLIConfig) (ctx : ExecutionContext)
    (run run2 : List String → SpawnOutcome) (now now2 : String)
    (agents : List String) (tm : TaskManager) (cm : ContextManager) (message : Message)
    (md : List (String × JVal)) (agentID : String) (tmo : Int) (wd : String)
    (gctx gtask n1 n2 n3 : String) :
    (extractPrompt ctx.userMessage = "" →
      CLIAgent.execute cfg run now ctx = .error "empty prompt" ∧
      CLIAgent.execute cfg run now ctx = CLIAgent.execute cfg run2 now2 ctx) ∧
    (message.kind = "message" → message.metadata = some md →
      (jlookup md "targetAgent").bind JVal.asStr = some agentID → agentID ≠ "" →
      agents.contains agentID = true → extractPrompt message = "" →
      (Server.handleMessageSend agents tm cm message tmo wd
          (CLIAgent.execute cfg run now) gctx gtask n1 n2 n3).2.2 =
        .error ⟨ErrInternalError, "empty prompt"⟩) := by
  constructor
  · intro h
    have hb : (extractPrompt ctx.userMessage == "") = true := by simp [h]
    constructor
    · simp [CLIAgent.execute, hb]
    · simp [CLIAgent.execute, hb]
  · intro hk hmd htgt hne hreg hblank
    have hkb : ¬ message.kind ≠ "message" := by simp [hk]
    have hneb : (agentID == "") = false := by simpa using hne
    have hregb : ¬ ¬ agents.contains agentID = true := not_not_intro hreg
    have hexec : ∀ cid : String,
        CLIAgent.execute cfg run now
          { taskId := gtask, contextId := cid,
            userMessage := { message with taskId := gtask, contextId := cid, metadata := some md },
            workingDir := if trimGo wd = "" then extractWorkingDir (some md) else wd,
            timeoutMs := tmo } = .error "empty prompt" := by
      intro cid
      have hsame : extractPrompt { message with taskId := gtask, contextId := cid, metadata := some md } = extractPrompt message := rfl
      have hb : (extractPrompt { message with taskId := gtask, contextId := cid, metadata := some md } == "") = true := by
        rw [hsame, hblank]; rfl
      simp [CLIAgent.execute, hb]
    simp only [Server.handleMessageSend, hmd, htgt, hkb, if_false, hneb, hregb,
      Bool.false_eq_true]
    by_cases hcid : message.contextId == ""
    · simp [hcid, hexec gctx]
    · simp [hcid, hexec message.contextId]

/-- C5 witness: the empty-prompt guard and its `InternalError` surfacing
at a message with no text parts. -/
theorem C5_empty_prompt_behaviour_witness :
    (extractPrompt ({ kind := "message", messageId := "m1", role := "user",
                      metadata := some [("targetAgent", JVal.str "claude-code")] } : Message) = "" ∧
     (Server.handleMessageSend ["claude-code"] {} {}
        { kind := "message", messageId := "m1", role := "user",
          metadata := some [("targetAgent", JVal.str "claude-code")] }
        0 "" (CLIAgent.execute { agentID := "claude-code", exec := "claude",
                                 args := ["-p", "{prompt}"] } (fun _ => .success "Hi") "T")
        "ctx-1" "task-1" "T1" "T2" "T3").2.2 =
      .error ⟨ErrInternalError, "empty prompt"⟩) := by
  refine ⟨rfl, ?_⟩
  exact (C5_empty_prompt_behaviour
      { agentID := "claude-code", exec := "claude", args := ["-p", "{prompt}"] }
      {} (fun _ => .success "Hi") (fun _ => .success "Hi") "T" "T"
      ["claude-code"] {} {}
      { kind := "message", messageId := "m1", role := "user",
        metadata := some [("targetAgent", JVal.str "claude-code")] }
      [("targetAgent", JVal.str "claude-code")] "claude-code" 0 ""
      "ctx-1" "task-1" "T1" "T2" "T3").2
      rfl rfl rfl (by decide) (by decide) rfl

/-- C6 counterexample: the claim says a line longer than 1 MiB is
rejected with a ParseError response. At the concrete connection carrying
a 1 MiB + 1 byte line followed by a short invalid line, the handler
writes no response at all — the default scanner stops at its 64 KiB token
cap without inspecting the line, and the later line is never processed
either. -/
theorem C6_oversized_line_counterexample :
    1048576 < 1048577 ∧
    UnixTransport.handleConn (fun _ => { jsonrpc := "2.0" })
      [⟨1048577, none⟩, ⟨5, none⟩] = [] :=
  ⟨by decide, rfl⟩

/-- C6 amended: for a connection whose lines all fit the default 64 KiB
scanner token cap, every line gets exactly one response in order — a
ParseError response when its bytes are not valid JSON, the handler
response otherwise — and processing continues after a parse error; but a
line exceeding the cap silently terminates the connection loop with no
response for it or any later line (there is no 1 MiB limit; the cap is
`bufio.MaxScanTokenSize` = 64 KiB). -/
theorem C6_ndjson_parse_errors (h : Request → Response) (lines : List WireLine) :
    ((∀ l ∈ lines, l.len ≤ maxScanTokenSize) →
      (UnixTransport.handleConn h lines).length = lines.length ∧
      (∀ i l, lines.get? i = some l →
        (UnixTransport.handleConn h lines).get? i =
          some (match l.parsed with
                | none => parseErrorResponse
                | some req => h req))) ∧
    (∀ l rest, maxScanTokenSize < l.len →
      UnixTransport.handleConn h (l :: rest) = []) := by
  constructor
  · induction lines with
    | nil =>
        intro _
        exact ⟨rfl, by intro i l hl; simp at hl⟩
    | cons a rest ih =>
        intro hlen
        have ha : ¬ maxScanTokenSize < a.len := by
          have := hlen a (by simp)
          omega
        have ⟨ihlen, ihidx⟩ := ih (fun l hl => hlen l (List.mem_cons_of_mem _ hl))
        cases hp : a.parsed with
        | none =>
            constructor
            · simp only [UnixTransport.handleConn, if_neg ha, hp, List.length_cons, ihlen]
            · intro i l hl
              cases i with
              | zero =>
                  simp only [List.get?] at hl
                  cases hl
                  simp [UnixTransport.handleConn, if_neg ha, hp]
              | succ j =>
                  simp only [List.get?] at hl
                  simp only [UnixTransport.handleConn, if_neg ha, hp, List.get?]
                  exact ihidx j l hl
        | some req =>
            constructor
            · simp only [UnixTransport.handleConn, if_neg ha, hp, List.length_cons, ihlen]
            · intro i l hl
              cases i with
              | zero =>
                  simp only [List.get?] at hl
                  cases hl
                  simp [UnixTransport.handleConn, if_neg ha, hp]
              | succ j =>
                  simp only [List.get?] at hl
                  simp only [UnixTransport.handleConn, if_neg ha, hp, List.get?]
                  exact ihidx j l hl
  · intro l rest hl
    simp [UnixTransport.handleConn, hl]

/-- C6 witness: the per-line responses on a concrete two-line connection
within the cap, and the silent stop at an oversized line. -/
theorem C6_ndjson_parse_errors_witness :
    ((∀ l ∈ ([⟨5, none⟩, ⟨6, some {}⟩] : List WireLine), l.len ≤ maxScanTokenSize) ∧
      (UnixTransport.handleConn (fun _ => { jsonrpc := "2.0" })
        [⟨5, none⟩, ⟨6, some {}⟩]).length = 2 ∧
      maxScanTokenSize < 70000 ∧
      UnixTransport.handleConn (fun _ => { jsonrpc := "2.0" }) [⟨70000, none⟩] = []) := by
  refine ⟨by decide, ?_, by decide, ?_⟩
  · exact ((C6_ndjson_parse_errors (fun _ => { jsonrpc := "2.0" })
      [⟨5, none⟩, ⟨6, some {}⟩]).1 (by decide)).1
  · exact (C6_ndjson_parse_errors (fun _ => { jsonrpc := "2.0" })
      [⟨70000, none⟩]).2 ⟨70000, none⟩ [] (by decide)

/-- Persisting never changes the task map itself. -/
theorem persistLocked_tasks (tm : TaskManager) : tm.persistLocked.tasks = tm.tasks := by
  unfold TaskManager.persistLocked
  split <;> rfl

/-- A freshly created task is readable under its id. -/
theorem get_create_self (tm : TaskManager) (t : Task) : (tm.create t).get t.id = some t := by
  unfold TaskManager.create TaskManager.get
  rw [persistLocked_tasks]
  exact mapGet_mapInsert_self _ _ _

/-- `UpdateStatus` on a present id succeeds and rewrites exactly the
status triple. -/
theorem updateStatus_get_self (tm : TaskManager) (id st : String) (msg : Option Message)
    (now : String) (t : Task) (h : tm.get id = some t) :
    (tm.updateStatus id st msg now).2 = none ∧
    (tm.updateStatus id st msg now).1.get id =
      some { t with status := { state := st, message := msg, timestamp := now } } := by
  unfold TaskManager.updateStatus
  unfold TaskManager.get at h
  rw [h]
  refine ⟨rfl, ?_⟩
  unfold TaskManager.get
  rw [persistLocked_tasks]
  exact mapGet_mapInsert_self _ _ _

/-- C8: when the target agent Execute returns an error, `message/send`
answers `InternalError` carrying the error text, and the stored task has
been transitioned to `failed` with a single-text-part agent message
carrying the same text, which a subsequent `tasks/get` returns. -/
theorem C8_messageSend_failure (agents : List String) (tm : TaskManager) (cm : ContextManager)
    (message : Message) (md : List (String × JVal)) (agentID : String)
    (tmo : Int) (wd : String) (e : String) (gctx gtask n1 n2 n3 : String)
    (hkind : message.kind = "message") (hmd : message.metadata = some md)
    (htgt : (jlookup md "targetAgent").bind JVal.asStr = some agentID)
    (hne : agentID ≠ "") (hreg : agents.contains agentID = true) (hgt : gtask ≠ "") :
    (Server.handleMessageSend agents tm cm message tmo wd (fun _ => .error e)
        gctx gtask n1 n2 n3).2.2 = .error ⟨ErrInternalError, e⟩ ∧
    (∃ cid, Server.handleTaskGet
        (Server.handleMessageSend agents tm cm message tmo wd (fun _ => .error e)
          gctx gtask n1 n2 n3).1 gtask =
      .ok { kind := "task", id := gtask, contextId := cid,
            status := { state := TaskStateFailed,
                        message := some { kind := "message", messageId := "error-" ++ gtask,
                                          role := "agent",
                                          parts := [{ kind := "text", text := e }],
                                          taskId := gtask, contextId := cid },
                        timestamp := n3 } }) := by
  have hkb : ¬ message.kind ≠ "message" := by simp [hkind]
  have hneb : (agentID == "") = false := by simpa using hne
  have hregb : ¬ ¬ agents.contains agentID = true := not_not_intro hreg
  have hgtb : (gtask == "") = false := by simpa using hgt
  have store : ∀ cid : String,
      (((tm.create { kind := "task", id := gtask, contextId := cid,
                     status := { state := TaskStateSubmitted,
                                 timestamp := n1 } }).updateStatus
          gtask TaskStateWorking none n2).1.updateStatus gtask TaskStateFailed
          (some { kind := "message", messageId := "error-" ++ gtask, role := "agent",
                  parts := [{ kind := "text", text := e }],
                  taskId := gtask, contextId := cid }) n3).1.get gtask =
        some { kind := "task", id := gtask, contextId := cid,
               status := { state := TaskStateFailed,
                           message := some { kind := "message",
                                             messageId := "error-" ++ gtask,
                                             role := "agent",
                                             parts := [{ kind := "text", text := e }],
                                             taskId := gtask, contextId := cid },
                           timestamp := n3 } } := by
    intro cid
    have h1 := get_create_self tm
      { kind := "task", id := gtask, contextId := cid,
        status := { state := TaskStateSubmitted, timestamp := n1 } }
    have h2 := (updateStatus_get_self _ gtask TaskStateWorking none n2 _ h1).2
    have h3 := (updateStatus_get_self _ gtask TaskStateFailed
      (some { kind := "message", messageId := "error-" ++ gtask, role := "agent",
              parts := [{ kind := "text", text := e }],
              taskId := gtask, contextId := cid }) n3 _ h2).2
    exact h3
  simp only [Server.handleMessageSend, hmd, htgt, hkb, hneb, hregb, if_false,
    Bool.false_eq_true]
  by_cases hcid : message.contextId == ""
  · constructor
    · simp [hcid]
    · refine ⟨gctx, ?_⟩
      simp only [hcid, if_true]
      simp only [Server.handleTaskGet, hgtb, Bool.false_eq_true, if_false]
      have := store gctx
      simp only [this]
  · constructor
    · simp [hcid]
    · refine ⟨message.contextId, ?_⟩
      simp only [hcid, Bool.false_eq_true, if_false]
      simp only [Server.handleTaskGet, hgtb, Bool.false_eq_true, if_false]
      have := store message.contextId
      simp only [this]

/-- C8 witness: the failure surfacing at a fully concrete call whose
agent errors with `boom`. -/
theorem C8_messageSend_failure_witness :
    (("a" : String) ≠ "" ∧ ("task-1" : String) ≠ "" ∧
      (Server.handleMessageSend ["a"] {} {}
        { kind := "message", messageId := "m1", role := "user",
          parts := [{ kind := "text", text := "hello" }],
          metadata := some [("targetAgent", JVal.str "a")] }
        0 "" (fun _ => .error "boom") "ctx-1" "task-1" "T1" "T2" "T3").2.2 =
      .error ⟨ErrInternalError, "boom"⟩) := by
  refine ⟨by decide, by decide, ?_⟩
  exact (C8_messageSend_failure ["a"] {} {}
      { kind := "message", messageId := "m1", role := "user",
        parts := [{ kind := "text", text := "hello" }],
        metadata := some [("targetAgent", JVal.str "a")] }
      [("targetAgent", JVal.str "a")] "a" 0 "" "boom" "ctx-1" "task-1" "T1" "T2" "T3"
      rfl rfl rfl (by decide) (by decide) (by decide)).1

/-- C9 counterexample: the claim says a closed-set option value that does
not match the documented enumeration is rejected with `InvalidParams`
rather than passed to the executable. At the concrete metadata carrying
`claudeConfig.model = "gpt-4"` — not one of the valid Claude models — the
configuration extraction has no rejection path at all and the rebuilt
argument vector hands `--model gpt-4` straight to the executable. -/
theorem C9_invalid_model_counterexample :
    ClaudeAgent.buildArgs (ClaudeAgent.extractClaudeConfig {}
        (some [("claudeConfig", JVal.obj [("model", JVal.str "gpt-4")])])) =
      ["--model", "gpt-4", "-p", "{prompt}", "--output-format", "text"] ∧
    ValidClaudeModels.contains "gpt-4" = false :=
  ⟨rfl, rfl⟩

/-- C9 amended: option keys other than the five recognised ones
(`continue`, `sessionId`, `model`, `toolProfile`, `allowedTools`) are
ignored by the Claude metadata merge; but closed-set values are not
validated — whatever string arrives as the model is stored in the merged
snapshot and, when non-empty, passed to the executable via `--model`
(the Gemini `approvalMode` behaves the same way); no `InvalidParams`
rejection exists on this path. -/
theorem C9_config_passthrough (dc : ClaudeConfig) (cfgMap : List (String × JVal))
    (key : String) (v : JVal) (m : String)
    (hkey : key ∉ (["continue", "sessionId", "model", "toolProfile",
      "allowedTools"] : List String)) :
    ClaudeAgent.extractClaudeConfig dc (some [("claudeConfig", JVal.obj ((key, v) :: cfgMap))]) =
      ClaudeAgent.extractClaudeConfig dc (some [("claudeConfig", JVal.obj cfgMap)]) ∧
    (ClaudeAgent.extractClaudeConfig {}
        (some [("claudeConfig", JVal.obj [("model", JVal.str m)])])).model = m ∧
    (m ≠ "" → ClaudeAgent.buildArgs (ClaudeAgent.extractClaudeConfig {}
        (some [("claudeConfig", JVal.obj [("model", JVal.str m)])])) =
      ["--model", m, "-p", "{prompt}", "--output-format", "text"]) ∧
    (GeminiAgent.extractGeminiConfig {}
        (some [("geminiConfig", JVal.obj [("approvalMode", JVal.str m)])])).approvalMode = m := by
  simp only [List.mem_cons, List.mem_singleton, not_or] at hkey
  obtain ⟨hk1, hk2, hk3, hk4, hk5⟩ := hkey
  have hb1 : (key == "continue") = false := by simpa using hk1
  have hb2 : (key == "sessionId") = false := by simpa using hk2
  have hb3 : (key == "model") = false := by simpa using hk3
  have hb4 : (key == "toolProfile") = false := by simpa using hk4
  have hb5 : (key == "allowedTools") = false := by simpa using hk5
  refine ⟨?_, rfl, ?_, rfl⟩
  · simp [ClaudeAgent.extractClaudeConfig, jlookup, JVal.asObj, JVal.asStr, JVal.asBool,
      JVal.asArr, hb1, hb2, hb3, hb4, hb5]
  · intro hm
    simp [ClaudeAgent.buildArgs, ClaudeAgent.extractClaudeConfig, jlookup, JVal.asObj,
      JVal.asStr, JVal.asBool, JVal.asArr, hm]

/-- C9 witness: the unknown-key and pass-through facts at the concrete
key `frobnicate` and model string `opus`. -/
theorem C9_config_passthrough_witness :
    (("frobnicate" : String) ∉ (["continue", "sessionId", "model", "toolProfile",
        "allowedTools"] : List String) ∧
      ClaudeAgent.extractClaudeConfig {}
          (some [("claudeConfig", JVal.obj [("frobnicate", JVal.boolean true)])]) =
        ClaudeAgent.extractClaudeConfig {} (some [("claudeConfig", JVal.obj [])]) ∧
      ("opus" : String) ≠ "" ∧
      ClaudeAgent.buildArgs (ClaudeAgent.extractClaudeConfig {}
          (some [("claudeConfig", JVal.obj [("model", JVal.str "opus")])])) =
        ["--model", "opus", "-p", "{prompt}", "--output-format", "text"]) := by
  have h := C9_config_passthrough {} [] "frobnicate" (JVal.boolean true) "opus" (by decide)
  exact ⟨by decide, h.1, by decide, h.2.2.1 (by decide)⟩

end AgentsHub
